import Mathlib

/-!
Verification of the request-admission and session-guard layer of the
customer-service agent sample: the per-session rate limiter
(`rateLimitCallback`), the argument normalizer (`lowercaseValue`), the
customer-identity guard (`validateCustomerId`), the pre- and post-dispatch
tool hooks (`beforeTool`, `afterTool`), the session bootstrap hook
(`beforeAgent`), and the mock discount tools (`approveDiscount`,
`syncAskForApproval`).

The TypeScript source is embedded shallowly:
* JavaScript dynamic values (the `any`-typed argument trees) become the
  inductive `JsonValue`; JS numbers are modelled as rationals.
* The session key-value store becomes the structure `SessionState`, one
  optional field per key the source reads or writes (`Option` models
  `state.has`).
* Wall-clock reads (`Date.now() / 1000`) become explicit rational
  parameters; the cooperative sleep becomes the reported `slept` amount.
* `JSON.parse` / `JSON.stringify` of the customer profile are platform
  builtins, modelled by classifying a stored profile string by its
  observable parse outcome (`ProfileSlot`).
-/

namespace CustomerService

/-- `const RATE_LIMIT_SECS = 60` from the callbacks module. -/
def RATE_LIMIT_SECS : ℚ := 60

/-- `const RPM_QUOTA = 10` from the callbacks module. -/
def RPM_QUOTA : ℚ := 10

/-- A JavaScript runtime value as it appears in tool-call argument trees:
`null`, booleans, numbers (modelled as rationals), strings, arrays and
plain objects (ordered key-value lists, as produced by `Object.entries`). -/
inductive JsonValue where
  | vnull : JsonValue
  | vbool : Bool → JsonValue
  | vnum : ℚ → JsonValue
  | vstr : String → JsonValue
  | varr : List JsonValue → JsonValue
  | vobj : List (String × JsonValue) → JsonValue
deriving Repr

/-- JavaScript `String.prototype.toLowerCase`, modelled character-wise with
the basic-latin lowercase map `Char.toLower`. -/
def toLowerCase (s : String) : String := String.mk (s.data.map Char.toLower)

mutual

/-- `lowercaseValue` from the callbacks module: recursively lowercase every
string leaf of a value; objects keep their keys, arrays keep order, and any
other scalar passes through unchanged. -/
def lowercaseValue : JsonValue → JsonValue
  | JsonValue.vobj fields => JsonValue.vobj (lowercaseFields fields)
  | JsonValue.vstr s => JsonValue.vstr (toLowerCase s)
  | JsonValue.varr xs => JsonValue.varr (lowercaseList xs)
  | JsonValue.vnull => JsonValue.vnull
  | JsonValue.vbool b => JsonValue.vbool b
  | JsonValue.vnum n => JsonValue.vnum n

/-- `value.map((i) => lowercaseValue(i))` on an array. -/
def lowercaseList : List JsonValue → List JsonValue
  | [] => []
  | x :: xs => lowercaseValue x :: lowercaseList xs

/-- The `Object.entries` loop of `lowercaseValue`: recurse into every value,
preserving keys. -/
def lowercaseFields : List (String × JsonValue) → List (String × JsonValue)
  | [] => []
  | (k, v) :: fs => (k, lowercaseValue v) :: lowercaseFields fs

end

/-- Key lookup in an argument object: `args[key]`, `none` when the key is
absent (JS `undefined`). -/
def lookupField : List (String × JsonValue) → String → Option JsonValue
  | [], _ => none
  | (k, v) :: fs, key => if k = key then some v else lookupField fs key

mutual

/-- JS `String(v)` / template-literal rendering of a value. Integer numbers
render as their decimal numeral exactly as in JS; a non-integer rational
renders as `num/den`, a model simplification in a branch no theorem
exercises. -/
def JsonValue.display : JsonValue → String
  | JsonValue.vnull => "null"
  | JsonValue.vbool true => "true"
  | JsonValue.vbool false => "false"
  | JsonValue.vnum q => toString q
  | JsonValue.vstr s => s
  | JsonValue.varr xs => String.intercalate "," (displayElems xs)
  | JsonValue.vobj _ => "[object Object]"

/-- Array elements under `Array.prototype.toString`: `null` renders as the
empty string inside a join. -/
def displayElems : List JsonValue → List String
  | [] => []
  | JsonValue.vnull :: xs => "" :: displayElems xs
  | JsonValue.vbool b :: xs => JsonValue.display (JsonValue.vbool b) :: displayElems xs
  | JsonValue.vnum q :: xs => JsonValue.display (JsonValue.vnum q) :: displayElems xs
  | JsonValue.vstr s :: xs => JsonValue.display (JsonValue.vstr s) :: displayElems xs
  | JsonValue.varr ys :: xs => JsonValue.display (JsonValue.varr ys) :: displayElems xs
  | JsonValue.vobj fs :: xs => JsonValue.display (JsonValue.vobj fs) :: displayElems xs

end

/-- JS `Number(x)` coercion, with `none` standing for `NaN`. String parsing
is modelled for integer numerals (empty string coerces to `0` as in JS);
arrays coerce through their string rendering. -/
def jsNumberOfString (s : String) : Option ℚ :=
  if s = "" then some 0 else (s.toInt?).map fun n => (n : ℚ)

/-- JS `Number(x)` on a runtime value. -/
def jsNumber : JsonValue → Option ℚ
  | JsonValue.vnum q => some q
  | JsonValue.vbool true => some 1
  | JsonValue.vbool false => some 0
  | JsonValue.vnull => some 0
  | JsonValue.vstr s => jsNumberOfString s
  | JsonValue.varr xs => jsNumberOfString (JsonValue.display (JsonValue.varr xs))
  | JsonValue.vobj _ => none

/-- JS strict equality `v === s` against a string: true exactly for a string
value with the same characters. -/
def jsStrictEqString : JsonValue → String → Bool
  | JsonValue.vstr s, t => s == t
  | _, _ => false

/-- `Address` from the customer entity module. -/
structure Address where
  street : String
  city : String
  state : String
  zip : String
deriving Repr

/-- `Product` from the customer entity module. -/
structure Product where
  product_id : String
  name : String
  quantity : ℚ
deriving Repr

/-- `Purchase` from the customer entity module. -/
structure Purchase where
  date : String
  items : List Product
  total_amount : ℚ
deriving Repr

/-- `CommunicationPreferences` from the customer entity module. -/
structure CommunicationPreferences where
  email : Bool
  sms : Bool
  push_notifications : Bool
deriving Repr

/-- `GardenProfile` from the customer entity module. -/
structure GardenProfile where
  type : String
  size : String
  sun_exposure : String
  soil_type : String
  interests : List String
deriving Repr

/-- `Customer` from the customer entity module. -/
structure Customer where
  account_number : String
  customer_id : String
  customer_first_name : String
  customer_last_name : String
  email : String
  phone_number : String
  customer_start_date : String
  years_as_customer : ℚ
  billing_address : Address
  purchase_history : List Purchase
  loyalty_points : ℚ
  preferred_store : String
  communication_preferences : CommunicationPreferences
  garden_profile : GardenProfile
  scheduled_appointments : List (String × JsonValue)
deriving Repr

/-- `Customer.getCustomer`: returns the fixed dummy customer record with
`customer_id` set to the requested id (a database lookup in a real system,
hence the `Option` result type of the source signature). -/
def Customer.getCustomer (currentCustomerId : String) : Option Customer :=
  some
    { customer_id := currentCustomerId
      account_number := "428765091"
      customer_first_name := "Alex"
      customer_last_name := "Johnson"
      email := "alex.johnson@example.com"
      phone_number := "+1-702-555-1212"
      customer_start_date := "2022-06-10"
      years_as_customer := 2
      billing_address :=
        { street := "123 Main St", city := "Anytown", state := "CA", zip := "12345" }
      purchase_history :=
        [ { date := "2023-03-05"
            items :=
              [ { product_id := "fert-111", name := "All-Purpose Fertilizer", quantity := 1 },
                { product_id := "trowel-222", name := "Gardening Trowel", quantity := 1 } ]
            total_amount := 35.98 },
          { date := "2023-07-12"
            items :=
              [ { product_id := "seeds-333", name := "Tomato Seeds (Variety Pack)", quantity := 2 },
                { product_id := "pots-444", name := "Terracotta Pots (6-inch)", quantity := 4 } ]
            total_amount := 42.5 },
          { date := "2024-01-20"
            items :=
              [ { product_id := "gloves-555", name := "Gardening Gloves (Leather)", quantity := 1 },
                { product_id := "pruner-666", name := "Pruning Shears", quantity := 1 } ]
            total_amount := 55.25 } ]
      loyalty_points := 133
      preferred_store := "Anytown Garden Store"
      communication_preferences :=
        { email := true, sms := false, push_notifications := true }
      garden_profile :=
        { type := "backyard", size := "medium", sun_exposure := "full sun",
          soil_type := "unknown", interests := ["flowers", "vegetables"] }
      scheduled_appointments := [] }

/-- The string stored under the `customer_profile` session key, classified by
how `validateCustomerId` observes it at runtime: `empty` is a falsy stored
value (the empty string), `corrupt` is a non-empty string on which
`JSON.parse` throws, and `serialized c` is the JSON text `c.toJson()` of
customer `c`, from which `JSON.parse` followed by the `Customer` constructor
recovers `c`. `JSON.parse` and `JSON.stringify` are platform builtins, not
code of this repository, and are embedded through this classification. -/
inductive ProfileSlot where
  | empty : ProfileSlot
  | corrupt : ProfileSlot
  | serialized : Customer → ProfileSlot
deriving Repr

/-- `Customer.prototype.toJson`: `JSON.stringify(this, null, 4)`, i.e. the
serialized form of `c`, as a `ProfileSlot`. -/
def Customer.toJson (c : Customer) : ProfileSlot := ProfileSlot.serialized c

/-- The session key-value store, one optional field per key the source
touches: `timer_start` and `request_count` for the rate window and the
serialized `customer_profile`. `none` models an absent key
(`state.has(key) = false`). -/
structure SessionState where
  timer_start : Option ℚ := none
  request_count : Option ℚ := none
  customer_profile : Option ProfileSlot := none
deriving Repr

/-- `validateCustomerId` from the callbacks module. The TS annotation types
`customerId` as a string, but the caller passes the raw argument value
`args['customer_id']`, so the parameter is modelled at the JS dynamic level;
`customerId === c.customer_id` is strict equality against a string. Returns
the `[valid, error]` pair of the source. -/
def validateCustomerId (customerId : JsonValue) (sessionState : SessionState) :
    Bool × Option String :=
  match sessionState.customer_profile with
  | none => (false, some "No customer profile selected. Please select a profile.")
  | some ProfileSlot.empty => (false, some "Customer profile is empty.")
  | some ProfileSlot.corrupt =>
      (false, some "Customer profile couldn\x27t be parsed. Please reload the customer data.")
  | some (ProfileSlot.serialized c) =>
      if jsStrictEqString customerId c.customer_id then (true, none)
      else
        (false, some ("You cannot use the tool with customer_id " ++ customerId.display ++
          ", only for " ++ c.customer_id ++ "."))

/-- The `sync_ask_for_approval` branch of `beforeTool`: a defined discount
`value` with `Number(value) <= 10` short-circuits with the canned approved
payload (`NaN` comparisons are false). -/
def syncApprovalShortCircuit (toolName : String) (args : List (String × JsonValue)) :
    Option (List (String × JsonValue)) :=
  if toolName = "sync_ask_for_approval" then
    match lookupField args "value" with
    | some amount =>
      match jsNumber amount with
      | some q =>
        if q ≤ 10 then
          some [("status", JsonValue.vstr "approved"),
                ("message", JsonValue.vstr "You can approve this discount; no manager needed.")]
        else none
      | none => none
    | none => none
  else none

/-- The `modify_cart` branch of `beforeTool`: re-entry calls whose arguments
already flag `items_added === true` and `items_removed === true`
short-circuit with a canned confirmation. -/
def modifyCartShortCircuit (toolName : String) (args : List (String × JsonValue)) :
    Option (List (String × JsonValue)) :=
  if toolName = "modify_cart" then
    match lookupField args "items_added", lookupField args "items_removed" with
    | some (JsonValue.vbool true), some (JsonValue.vbool true) =>
        some [("result", JsonValue.vstr "I have added and removed the requested items.")]
    | _, _ => none
  else none

/-- Result of `beforeTool`: the argument object after the in-place lowercase
mutation (the source deletes every key of `args` and copies the lowercased
entries back in), and the returned override, `none` for `undefined`. -/
structure BeforeToolOutcome where
  args : List (String × JsonValue)
  response : Option (List (String × JsonValue))
deriving Repr

/-- `beforeTool` from the callbacks module: lowercase the arguments in
place, then run the customer-identity guard when a `customer_id` key is
present (a failed guard returns an `{ error }` payload), then try the
`sync_ask_for_approval` and `modify_cart` short-circuits in source order. -/
def beforeTool (toolName : String) (args : List (String × JsonValue))
    (st : SessionState) : BeforeToolOutcome :=
  let lowercasedArgs := lowercaseFields args
  let guardError : Option (List (String × JsonValue)) :=
    match lookupField lowercasedArgs "customer_id" with
    | some customerId =>
      match validateCustomerId customerId st with
      | (false, some err) => some [("error", JsonValue.vstr err)]
      | _ => none
    | none => none
  match guardError with
  | some e => ⟨lowercasedArgs, some e⟩
  | none =>
    match syncApprovalShortCircuit toolName lowercasedArgs with
    | some r => ⟨lowercasedArgs, some r⟩
    | none => ⟨lowercasedArgs, modifyCartShortCircuit toolName lowercasedArgs⟩

/-- Outcome of one tool dispatch at the framework boundary. -/
inductive DispatchResult where
  | overridden : List (String × JsonValue) → DispatchResult
  | executed : List (String × JsonValue) → DispatchResult
deriving Repr

/-- Modelled from the spec: the hosting ADK runtime (not code of this
repository) short-circuits the whole tool call when the before-tool
callback returns a payload — "the underlying tool is never invoked" — and
otherwise runs the tool on the mutated arguments. `overridden r` means the
tool was skipped and `r` surfaced as the result; `executed a` means the
underlying tool runs on arguments `a`. -/
def dispatch (toolName : String) (args : List (String × JsonValue))
    (st : SessionState) : DispatchResult :=
  let out := beforeTool toolName args st
  match out.response with
  | some r => DispatchResult.overridden r
  | none => DispatchResult.executed out.args

/-- Whether a tool response is truthy with `response['status'] === s`. -/
def responseStatusIs (toolResponse : Option (List (String × JsonValue))) (s : String) : Bool :=
  match toolResponse with
  | none => false
  | some r =>
    match lookupField r "status" with
    | some (JsonValue.vstr t) => t == s
    | _ => false

/-- Result of `afterTool`: the returned override (`none` for `undefined`,
on every path of the source) and whether the "Applying discount to the
cart" placeholder side effect ran. -/
structure AfterToolOutcome where
  response : Option (List (String × JsonValue))
  appliesDiscount : Bool
deriving Repr

/-- `afterTool` from the callbacks module: for `sync_ask_for_approval` with
an approved response or `approve_discount` with an ok response, log the
apply-discount placeholder; always return `undefined`. -/
def afterTool (toolName : String) (toolResponse : Option (List (String × JsonValue))) :
    AfterToolOutcome :=
  { response := none
    appliesDiscount :=
      (toolName == "sync_ask_for_approval" && responseStatusIs toolResponse "approved")
        || (toolName == "approve_discount" && responseStatusIs toolResponse "ok") }

/-- `beforeAgent` from the callbacks module: when the session has no
`customer_profile` key, load the fixed default customer (`id "123"`) and
bind its serialized form into session state; otherwise do nothing. -/
def beforeAgent (st : SessionState) : SessionState :=
  if st.customer_profile.isSome then st
  else
    match Customer.getCustomer "123" with
    | some customer => { st with customer_profile := some customer.toJson }
    | none => st

/-- One `part` of an outbound model request (`'text' in part` is modelled by
`text` being present). -/
structure LlmPart where
  text : Option String
deriving Repr

/-- One `content` of an outbound model request. -/
structure LlmContent where
  parts : Option (List LlmPart)
deriving Repr

/-- An outbound model request; `contents` may be absent. -/
structure LlmRequest where
  contents : Option (List LlmContent)
deriving Repr

/-- The empty-text rewrite of `rateLimitCallback`: a part whose text is the
empty string becomes a single space. -/
def normalizePart (part : LlmPart) : LlmPart :=
  match part.text with
  | some t => if t = "" then { text := some " " } else part
  | none => part

/-- The per-content loop of the empty-text rewrite. -/
def normalizeContent (content : LlmContent) : LlmContent :=
  match content.parts with
  | some ps => { parts := some (ps.map normalizePart) }
  | none => content

/-- Result of one `rateLimitCallback` invocation: the request after its
in-place rewrite, the session state after its mutations, how many seconds
the caller was suspended (`0` when it proceeded immediately), and the
returned `LlmResponse` override — `undefined` on every path of the source,
so the request is always admitted. -/
structure RateLimitOutcome where
  request : Option LlmRequest
  state : SessionState
  slept : ℚ
  response : Option Unit
deriving Repr

/-- `rateLimitCallback` from the callbacks module. `now` is the
`Date.now() / 1000` read on entry and `nowAfterSleep` the second read used
to reset `timer_start` after the (possibly zero-length) suspension. The
`|| 0` and `|| now` JS defaults are modelled on the `Option` values; `0` is
its own falsy default, and a zero `timer_start` falls back to `now`. -/
def rateLimitCallback (now nowAfterSleep : ℚ) (llmRequest : Option LlmRequest)
    (st : SessionState) : RateLimitOutcome :=
  match llmRequest with
  | none => ⟨none, st, 0, none⟩
  | some req =>
    match req.contents with
    | none => ⟨some req, st, 0, none⟩
    | some contents =>
      let req' : LlmRequest := ⟨some (contents.map normalizeContent)⟩
      match st.timer_start with
      | none =>
        ⟨some req', { st with timer_start := some now, request_count := some 1 }, 0, none⟩
      | some ts =>
        let requestCount : ℚ :=
          (match st.request_count with
            | some c => c
            | none => 0) + 1
        let timerStart : ℚ := if ts = 0 then now else ts
        let elapsedSecs : ℚ := now - timerStart
        if requestCount > RPM_QUOTA then
          let delay : ℚ := RATE_LIMIT_SECS - elapsedSecs + 1
          let slept : ℚ := if delay > 0 then delay else 0
          ⟨some req',
            { st with timer_start := some nowAfterSleep, request_count := some 1 },
            slept, none⟩
        else
          ⟨some req', { st with request_count := some requestCount }, 0, none⟩

/-- Whether an invocation actually reaches the rate-limit logic (the source
returns early when the request or its contents are undefined). -/
def hasContents : Option LlmRequest → Bool
  | some req => req.contents.isSome
  | none => false

/-- A sequence of completed `rateLimitCallback` invocations: each step is a
pair of clock reads and a request; returns the final session state and the
list of slept delays, in order. -/
def runRateLimiter : List (ℚ × ℚ × Option LlmRequest) → SessionState → SessionState × List ℚ
  | [], st => (st, [])
  | (now, nowAfter, req) :: rest, st =>
    let out := rateLimitCallback now nowAfter req st
    let r := runRateLimiter rest out.state
    (r.1, out.slept :: r.2)

/-- `StatusResponse` from the tools module (the fields the discount tools
populate). -/
structure StatusResponse where
  status : String
  message : Option String := none
deriving Repr

/-- `approveDiscount` from the tools module: reject any discount value
above 10, otherwise return ok. -/
def approveDiscount (discountType : String) (value : ℚ) (reason : String) : StatusResponse :=
  if value > 10 then
    { status := "rejected", message := some "discount too large. Must be 10 or less." }
  else
    { status := "ok" }

/-- `syncAskForApproval` from the tools module: the mock manager always
approves. -/
def syncAskForApproval (discountType : String) (value : ℚ) (reason : String) : StatusResponse :=
  { status := "approved" }

/-! ## Supporting lemmas -/

theorem toNat_ofNat_lt {n : Nat} (h : n < 55296) : (Char.ofNat n).toNat = n := by
  have hv : n.isValidChar := Or.inl h
  simp [Char.ofNat, hv, Char.ofNatAux, Char.toNat, UInt32.toNat, BitVec.toNat_ofNatLt]

theorem charToLower_idem (c : Char) : c.toLower.toLower = c.toLower := by
  unfold Char.toLower
  by_cases h : 65 ≤ c.toNat ∧ c.toNat ≤ 90
  · have h1 : (Char.ofNat (c.toNat + 32)).toNat = c.toNat + 32 :=
      toNat_ofNat_lt (by omega)
    simp only [ge_iff_le, h, and_self, if_true, h1]
    rw [if_neg (by omega)]
  · simp [h]

theorem toLowerCase_idem (s : String) : toLowerCase (toLowerCase s) = toLowerCase s := by
  have hc : Char.toLower ∘ Char.toLower = Char.toLower := funext charToLower_idem
  simp [toLowerCase, List.map_map, hc]

theorem lowercaseList_eq_map (xs : List JsonValue) :
    lowercaseList xs = xs.map lowercaseValue := by
  induction xs with
  | nil => rfl
  | cons x xs ih => rw [lowercaseList, ih, List.map_cons]

theorem lowercaseFields_eq_map (fs : List (String × JsonValue)) :
    lowercaseFields fs = fs.map fun kv => (kv.1, lowercaseValue kv.2) := by
  induction fs with
  | nil => rfl
  | cons kv fs ih => obtain ⟨k, v⟩ := kv; rw [lowercaseFields, ih, List.map_cons]

mutual

theorem lowercaseValue_idem : ∀ v, lowercaseValue (lowercaseValue v) = lowercaseValue v
  | JsonValue.vobj fs => by
      rw [lowercaseValue, lowercaseValue, lowercaseFields_idem fs]
  | JsonValue.vstr s => by
      rw [lowercaseValue, lowercaseValue, toLowerCase_idem s]
  | JsonValue.varr xs => by
      rw [lowercaseValue, lowercaseValue, lowercaseList_idem xs]
  | JsonValue.vnull => rfl
  | JsonValue.vbool _ => rfl
  | JsonValue.vnum _ => rfl

theorem lowercaseList_idem : ∀ xs, lowercaseList (lowercaseList xs) = lowercaseList xs
  | [] => rfl
  | x :: xs => by
      rw [lowercaseList, lowercaseList, lowercaseValue_idem x, lowercaseList_idem xs]

theorem lowercaseFields_idem : ∀ fs, lowercaseFields (lowercaseFields fs) = lowercaseFields fs
  | [] => rfl
  | (k, v) :: fs => by
      rw [lowercaseFields, lowercaseFields, lowercaseValue_idem v, lowercaseFields_idem fs]

end

/-! ## Claims -/

/-- C3: normalization (`lowercaseValue`) preserves structural shape — an
object stays an object with the same keys in the same order, an array stays
an array of the same length with elements normalized in order — it
lowercases exactly the string leaves, leaves every non-string scalar
(`null`, booleans, numbers) unchanged, and it is idempotent. -/
theorem lowercaseValue_spec :
    (∀ fields, ∃ fields2,
      lowercaseValue (JsonValue.vobj fields) = JsonValue.vobj fields2 ∧
      fields2.map Prod.fst = fields.map Prod.fst ∧
      fields2.map Prod.snd = (fields.map Prod.snd).map lowercaseValue) ∧
    (∀ xs, lowercaseValue (JsonValue.varr xs) = JsonValue.varr (xs.map lowercaseValue) ∧
      (xs.map lowercaseValue).length = xs.length) ∧
    (∀ s, lowercaseValue (JsonValue.vstr s) = JsonValue.vstr (toLowerCase s)) ∧
    (lowercaseValue JsonValue.vnull = JsonValue.vnull) ∧
    (∀ b, lowercaseValue (JsonValue.vbool b) = JsonValue.vbool b) ∧
    (∀ q, lowercaseValue (JsonValue.vnum q) = JsonValue.vnum q) ∧
    (∀ v, lowercaseValue (lowercaseValue v) = lowercaseValue v) := by
  refine ⟨?_, ?_, fun s => by rw [lowercaseValue], rfl, fun _ => rfl, fun _ => rfl,
    lowercaseValue_idem⟩
  · intro fields
    refine ⟨lowercaseFields fields, by rw [lowercaseValue], ?_, ?_⟩ <;>
      simp [lowercaseFields_eq_map, List.map_map, Function.comp]
  · intro xs
    exact ⟨by rw [lowercaseValue, lowercaseList_eq_map], by simp⟩

/-! ### Rate limiter branch lemmas -/

theorem rateLimitCallback_no_request (now na : ℚ) (st : SessionState) :
    rateLimitCallback now na none st = ⟨none, st, 0, none⟩ := rfl

theorem rateLimitCallback_no_contents (now na : ℚ) (st : SessionState) :
    rateLimitCallback now na (some ⟨none⟩) st = ⟨some ⟨none⟩, st, 0, none⟩ := rfl

theorem rateLimitCallback_fresh (now na : ℚ) (contents : List LlmContent)
    (rcv : Option ℚ) (p : Option ProfileSlot) :
    rateLimitCallback now na (some ⟨some contents⟩) ⟨none, rcv, p⟩ =
      ⟨some ⟨some (contents.map normalizeContent)⟩, ⟨some now, some 1, p⟩, 0, none⟩ := rfl

theorem rateLimitCallback_within (now na ts : ℚ) (contents : List LlmContent)
    (rcv : Option ℚ) (p : Option ProfileSlot)
    (hcount : rcv.getD 0 + 1 ≤ RPM_QUOTA) :
    rateLimitCallback now na (some ⟨some contents⟩) ⟨some ts, rcv, p⟩ =
      ⟨some ⟨some (contents.map normalizeContent)⟩,
        ⟨some ts, some (rcv.getD 0 + 1), p⟩, 0, none⟩ := by
  cases rcv <;>
    simp_all [rateLimitCallback, not_lt.mpr, Option.getD]

theorem rateLimitCallback_over (now na ts : ℚ) (contents : List LlmContent)
    (rcv : Option ℚ) (p : Option ProfileSlot)
    (hts0 : ts ≠ 0) (hover : rcv.getD 0 + 1 > RPM_QUOTA) :
    rateLimitCallback now na (some ⟨some contents⟩) ⟨some ts, rcv, p⟩ =
      ⟨some ⟨some (contents.map normalizeContent)⟩, ⟨some na, some 1, p⟩,
        if RATE_LIMIT_SECS - (now - ts) + 1 > 0 then RATE_LIMIT_SECS - (now - ts) + 1 else 0,
        none⟩ := by
  cases rcv <;>
    simp_all [rateLimitCallback, Option.getD]

/-- C1: when the incremented request count exceeds `RPM_QUOTA = 10` (the
`(N+1)`-th request of a window with `N = RPM_QUOTA` stored), the callback
computes `delay = RATE_LIMIT_SECS - elapsed + 1` with
`elapsed = now - timer_start`, suspends for exactly that delay when it is
positive and otherwise proceeds immediately, then resets `timer_start` to
the current (post-sleep) clock and `request_count` to `1`, and still admits
the request (`undefined` is returned, never an error). -/
theorem rateLimitCallback_over_quota (now nowAfterSleep ts c : ℚ)
    (contents : List LlmContent) (rcv : Option ℚ) (p : Option ProfileSlot)
    (hts0 : ts ≠ 0) (hc : rcv = some c) (hover : c + 1 > RPM_QUOTA) :
    (rateLimitCallback now nowAfterSleep (some ⟨some contents⟩) ⟨some ts, rcv, p⟩).slept =
      (if RATE_LIMIT_SECS - (now - ts) + 1 > 0
        then RATE_LIMIT_SECS - (now - ts) + 1 else 0) ∧
    (RATE_LIMIT_SECS - (now - ts) + 1 > 0 →
      (rateLimitCallback now nowAfterSleep (some ⟨some contents⟩)
        ⟨some ts, rcv, p⟩).slept = RATE_LIMIT_SECS - (now - ts) + 1) ∧
    (RATE_LIMIT_SECS - (now - ts) + 1 ≤ 0 →
      (rateLimitCallback now nowAfterSleep (some ⟨some contents⟩)
        ⟨some ts, rcv, p⟩).slept = 0) ∧
    (rateLimitCallback now nowAfterSleep (some ⟨some contents⟩)
      ⟨some ts, rcv, p⟩).state.timer_start = some nowAfterSleep ∧
    (rateLimitCallback now nowAfterSleep (some ⟨some contents⟩)
      ⟨some ts, rcv, p⟩).state.request_count = some 1 ∧
    (rateLimitCallback now nowAfterSleep (some ⟨some contents⟩)
      ⟨some ts, rcv, p⟩).response = none := by
  subst hc
  have h := rateLimitCallback_over now nowAfterSleep ts contents (some c) p hts0
    (by simpa using hover)
  rw [h]
  refine ⟨rfl, fun hpos => by rw [if_pos hpos], fun hnp => ?_, rfl, rfl, rfl⟩
  rw [if_neg (not_lt.mpr hnp)]

/-- Witness for C1: at `now = 100`, `timer_start = 50` and a stored count of
`10`, the 11th request sleeps `60 - 50 + 1 = 11` seconds, the window resets
at the post-sleep clock `161` with count `1`, and the request is admitted. -/
theorem rateLimitCallback_over_quota_witness :
    (rateLimitCallback 100 161 (some ⟨some []⟩) ⟨some 50, some 10, none⟩).slept = 11 ∧
    (rateLimitCallback 100 161 (some ⟨some []⟩)
      ⟨some 50, some 10, none⟩).state.timer_start = some 161 ∧
    (rateLimitCallback 100 161 (some ⟨some []⟩)
      ⟨some 50, some 10, none⟩).state.request_count = some 1 ∧
    (rateLimitCallback 100 161 (some ⟨some []⟩) ⟨some 50, some 10, none⟩).response = none := by
  have h := rateLimitCallback_over_quota 100 161 50 10 [] (some 10) none
    (by norm_num) rfl (by norm_num [RPM_QUOTA])
  refine ⟨?_, h.2.2.2.1, h.2.2.2.2.1, h.2.2.2.2.2⟩
  rw [h.1]
  norm_num [RATE_LIMIT_SECS]

theorem runRateLimiter_cons (now na : ℚ) (req : Option LlmRequest)
    (rest : List (ℚ × ℚ × Option LlmRequest)) (st : SessionState) :
    runRateLimiter ((now, na, req) :: rest) st =
      ((runRateLimiter rest (rateLimitCallback now na req st).state).1,
        (rateLimitCallback now na req st).slept ::
          (runRateLimiter rest (rateLimitCallback now na req st).state).2) := rfl

theorem hasContents_iff (req : Option LlmRequest) :
    hasContents req = true ↔ ∃ c, req = some ⟨some c⟩ := by
  match req with
  | none => simp [hasContents]
  | some ⟨none⟩ => simp [hasContents]
  | some ⟨some c⟩ => simp [hasContents]

theorem runRateLimiter_no_delay_aux (steps : List (ℚ × ℚ × Option LlmRequest)) :
    ∀ (ts k : ℚ) (p : Option ProfileSlot),
      k + steps.length ≤ RPM_QUOTA →
      (∀ s ∈ steps, hasContents s.2.2 = true) →
      ∀ d ∈ (runRateLimiter steps ⟨some ts, some k, p⟩).2, d = 0 := by
  induction steps with
  | nil => intro ts k p _ _ d hd; simp [runRateLimiter] at hd
  | cons s rest ih =>
    obtain ⟨now, na, req⟩ := s
    intro ts k p hbound hgen d hd
    obtain ⟨contents, rfl⟩ := (hasContents_iff req).mp (hgen _ (List.mem_cons_self _ _))
    simp only [List.length_cons, Nat.cast_add, Nat.cast_one] at hbound
    have hlen0 : (0 : ℚ) ≤ (rest.length : ℚ) := by positivity
    have hwithin := rateLimitCallback_within now na ts contents (some k) p
      (by simp only [Option.getD]; linarith)
    rw [runRateLimiter_cons, hwithin] at hd
    dsimp only at hd
    rcases List.mem_cons.mp hd with h | h
    · exact h
    · refine ih ts (k + 1) p ?_ (fun s hs => hgen s (List.mem_cons_of_mem _ hs)) d ?_
      · linarith
      · simpa [Option.getD] using h

/-- C2: a session with no rate-window state is initialized on its first
admission (`timer_start = now`, `request_count = 1`) with no delay; a
subsequent request whose incremented count stays within `RPM_QUOTA` persists
the incremented count, keeps the window start, and admits with no delay;
and consequently any `N ≤ RPM_QUOTA` admitted requests from a fresh session
introduce no delay at all. -/
theorem rateLimitCallback_within_quota :
    (∀ (now na : ℚ) (contents : List LlmContent) (rcv : Option ℚ) (p : Option ProfileSlot),
      (rateLimitCallback now na (some ⟨some contents⟩)
        ⟨none, rcv, p⟩).state.timer_start = some now ∧
      (rateLimitCallback now na (some ⟨some contents⟩)
        ⟨none, rcv, p⟩).state.request_count = some 1 ∧
      (rateLimitCallback now na (some ⟨some contents⟩) ⟨none, rcv, p⟩).slept = 0 ∧
      (rateLimitCallback now na (some ⟨some contents⟩) ⟨none, rcv, p⟩).response = none) ∧
    (∀ (now na ts c : ℚ) (contents : List LlmContent) (p : Option ProfileSlot),
      c + 1 ≤ RPM_QUOTA →
      (rateLimitCallback now na (some ⟨some contents⟩)
        ⟨some ts, some c, p⟩).state.request_count = some (c + 1) ∧
      (rateLimitCallback now na (some ⟨some contents⟩)
        ⟨some ts, some c, p⟩).state.timer_start = some ts ∧
      (rateLimitCallback now na (some ⟨some contents⟩) ⟨some ts, some c, p⟩).slept = 0 ∧
      (rateLimitCallback now na (some ⟨some contents⟩) ⟨some ts, some c, p⟩).response = none) ∧
    (∀ (steps : List (ℚ × ℚ × Option LlmRequest)) (p : Option ProfileSlot),
      (steps.length : ℚ) ≤ RPM_QUOTA →
      (∀ s ∈ steps, hasContents s.2.2 = true) →
      ∀ d ∈ (runRateLimiter steps ⟨none, none, p⟩).2, d = 0) := by
  refine ⟨?_, ?_, ?_⟩
  · intro now na contents rcv p
    rw [rateLimitCallback_fresh]
    exact ⟨rfl, rfl, rfl, rfl⟩
  · intro now na ts c contents p hle
    rw [rateLimitCallback_within now na ts contents (some c) p (by simpa using hle)]
    simp [Option.getD]
  · intro steps p hlen hgen d hd
    match steps, hd with
    | (now, na, req) :: rest, hd =>
      obtain ⟨contents, rfl⟩ := (hasContents_iff req).mp (hgen _ (List.mem_cons_self _ _))
      rw [runRateLimiter_cons, rateLimitCallback_fresh] at hd
      dsimp only at hd
      simp only [List.length_cons, Nat.cast_add, Nat.cast_one] at hlen
      rcases List.mem_cons.mp hd with h | h
      · exact h
      · exact runRateLimiter_no_delay_aux rest now 1 p (by linarith)
          (fun s hs => hgen s (List.mem_cons_of_mem _ hs)) d h

/-- Witness for C2: a first admission at `now = 100` initializes the window
with count `1` and no delay; a within-quota admission with stored count `3`
persists `4` with no delay; and two admitted requests from a fresh session
produce only zero delays. -/
theorem rateLimitCallback_within_quota_witness :
    ((rateLimitCallback 100 100 (some ⟨some []⟩)
        ⟨none, none, none⟩).state.timer_start = some 100 ∧
      (rateLimitCallback 100 100 (some ⟨some []⟩)
        ⟨none, none, none⟩).state.request_count = some 1 ∧
      (rateLimitCallback 100 100 (some ⟨some []⟩) ⟨none, none, none⟩).slept = 0) ∧
    ((rateLimitCallback 200 200 (some ⟨some []⟩)
        ⟨some 100, some 3, none⟩).state.request_count = some 4 ∧
      (rateLimitCallback 200 200 (some ⟨some []⟩) ⟨some 100, some 3, none⟩).slept = 0) ∧
    (∀ d ∈ (runRateLimiter [(100, 100, some ⟨some []⟩), (101, 101, some ⟨some []⟩)]
        ⟨none, none, none⟩).2, d = 0) := by
  have h := rateLimitCallback_within_quota
  have h1 := h.1 100 100 [] none none
  have h2 := h.2.1 200 200 100 3 [] none (by norm_num [RPM_QUOTA])
  refine ⟨⟨h1.1, h1.2.1, h1.2.2.1⟩, ⟨?_, h2.2.2.1⟩, ?_⟩
  · rw [h2.1]; norm_num
  · refine h.2.2 _ none (by norm_num [RPM_QUOTA]) ?_
    intro s hs
    fin_cases hs <;> rfl

theorem rateLimitCallback_count_preserved (now na : ℚ) (req : Option LlmRequest)
    (st : SessionState)
    (hst : ∀ c, st.request_count = some c → 1 ≤ c ∧ c ≤ RPM_QUOTA) :
    ∀ c, (rateLimitCallback now na req st).state.request_count = some c →
      1 ≤ c ∧ c ≤ RPM_QUOTA := by
  obtain ⟨tsv, rcv, pv⟩ := st
  match req with
  | none => exact hst
  | some ⟨none⟩ => exact hst
  | some ⟨some contents⟩ =>
    match tsv with
    | none =>
      rw [rateLimitCallback_fresh]
      intro c hc
      obtain rfl : (1 : ℚ) = c := Option.some.inj hc
      norm_num [RPM_QUOTA]
    | some ts =>
      by_cases hover : rcv.getD 0 + 1 > RPM_QUOTA
      · intro c hc
        have hstate : (rateLimitCallback now na (some ⟨some contents⟩)
            ⟨some ts, rcv, pv⟩).state.request_count = some 1 := by
          cases rcv <;> simp_all [rateLimitCallback, Option.getD]
        rw [hstate] at hc
        obtain rfl : (1 : ℚ) = c := Option.some.inj hc
        norm_num [RPM_QUOTA]
      · push_neg at hover
        rw [rateLimitCallback_within now na ts contents rcv pv hover]
        intro c hc
        obtain rfl : rcv.getD 0 + 1 = c := Option.some.inj hc
        refine ⟨?_, hover⟩
        match rcv with
        | none => norm_num [Option.getD]
        | some c0 =>
          have := (hst c0 rfl).1
          simp only [Option.getD]
          linarith

/-- C7: starting from a session with no rate-window state, after any
sequence of completed `rateLimitCallback` invocations the stored
`request_count` always satisfies `1 ≤ request_count ≤ RPM_QUOTA = 10`; the
count only exceeds the quota transiently inside an invocation before the
reset writes `1` back, never in the state an invocation leaves behind. -/
theorem runRateLimiter_request_count_bounds (steps : List (ℚ × ℚ × Option LlmRequest))
    (p : Option ProfileSlot) (c : ℚ)
    (h : (runRateLimiter steps ⟨none, none, p⟩).1.request_count = some c) :
    1 ≤ c ∧ c ≤ RPM_QUOTA := by
  suffices haux : ∀ (steps : List (ℚ × ℚ × Option LlmRequest)) (st : SessionState),
      (∀ c, st.request_count = some c → 1 ≤ c ∧ c ≤ RPM_QUOTA) →
      ∀ c, (runRateLimiter steps st).1.request_count = some c → 1 ≤ c ∧ c ≤ RPM_QUOTA by
    exact haux steps ⟨none, none, p⟩ (fun c hc => nomatch hc) c h
  intro steps
  induction steps with
  | nil => intro st hst c hc; exact hst c hc
  | cons s rest ih =>
    obtain ⟨now, na, req⟩ := s
    intro st hst c hc
    rw [runRateLimiter_cons] at hc
    exact ih _ (rateLimitCallback_count_preserved now na req st hst) c hc

/-- Witness for C7: two admitted requests from a fresh session leave a
stored count of `2`, which the invariant places in `[1, RPM_QUOTA]`. -/
theorem runRateLimiter_request_count_bounds_witness :
    (runRateLimiter [(100, 100, some ⟨some []⟩), (101, 101, some ⟨some []⟩)]
      ⟨none, none, none⟩).1.request_count = some 2 ∧
    (1 ≤ (2 : ℚ) ∧ (2 : ℚ) ≤ RPM_QUOTA) := by
  have hcount : (runRateLimiter [(100, 100, some ⟨some []⟩), (101, 101, some ⟨some []⟩)]
      ⟨none, none, none⟩).1.request_count = some 2 := by
    rw [runRateLimiter_cons, rateLimitCallback_fresh, runRateLimiter_cons]
    dsimp only
    rw [rateLimitCallback_within 101 101 100 [] (some 1) none (by norm_num [RPM_QUOTA])]
    norm_num [runRateLimiter, Option.getD]
  exact ⟨hcount,
    runRateLimiter_request_count_bounds
      [(100, 100, some ⟨some []⟩), (101, 101, some ⟨some []⟩)] none 2 hcount⟩

theorem jsStrictEqString_iff (v : JsonValue) (s : String) :
    jsStrictEqString v s = true ↔ v = JsonValue.vstr s := by
  cases v <;> simp [jsStrictEqString]

/-- C4: with a parseable profile bound in session state, the identity guard
passes exactly when the supplied `customer_id` is the bound profile's
`customer_id` (as a string); with a session bound to customer `"123"`, a
call with `customer_id "123"` passes and a call with `customer_id "999"`
fails with a message naming both `"999"` and `"123"`; and whenever the
guard fails, `beforeTool` returns an `{ error }` payload, so the dispatch
is short-circuited and the underlying tool is never invoked. -/
theorem validateCustomerId_spec :
    (∀ (v : JsonValue) (st : SessionState) (c : Customer),
      st.customer_profile = some (ProfileSlot.serialized c) →
      ((validateCustomerId v st).1 = true ↔ v = JsonValue.vstr c.customer_id)) ∧
    (∀ (st : SessionState) (c : Customer),
      st.customer_profile = some (ProfileSlot.serialized c) →
      c.customer_id = "123" →
      validateCustomerId (JsonValue.vstr "123") st = (true, none) ∧
      validateCustomerId (JsonValue.vstr "999") st =
        (false, some "You cannot use the tool with customer_id 999, only for 123.")) ∧
    (∀ (toolName : String) (args : List (String × JsonValue)) (st : SessionState)
        (v : JsonValue) (err : String),
      lookupField (lowercaseFields args) "customer_id" = some v →
      validateCustomerId v st = (false, some err) →
      (beforeTool toolName args st).response = some [("error", JsonValue.vstr err)] ∧
      dispatch toolName args st =
        DispatchResult.overridden [("error", JsonValue.vstr err)]) := by
  refine ⟨?_, ?_, ?_⟩
  · intro v st c hprof
    rw [← jsStrictEqString_iff]
    simp only [validateCustomerId, hprof]
    cases hb : jsStrictEqString v c.customer_id <;> simp [hb]
  · intro st c hprof hid
    constructor <;>
      simp [validateCustomerId, hprof, hid, jsStrictEqString, JsonValue.display]
  · intro toolName args st v err hlook hval
    have hresp : (beforeTool toolName args st).response =
        some [("error", JsonValue.vstr err)] := by
      simp only [beforeTool, hlook, hval]
    exact ⟨hresp, by simp only [dispatch, hresp]⟩

/-- Witness for C4: the default profile (customer `"123"`) bound in session
state admits `customer_id "123"`, rejects `"999"` with the message naming
both ids, and the failed guard short-circuits the dispatch with an error
payload. -/
theorem validateCustomerId_spec_witness :
    validateCustomerId (JsonValue.vstr "123")
      ⟨none, none, (Customer.getCustomer "123").map Customer.toJson⟩ = (true, none) ∧
    validateCustomerId (JsonValue.vstr "999")
      ⟨none, none, (Customer.getCustomer "123").map Customer.toJson⟩ =
      (false, some "You cannot use the tool with customer_id 999, only for 123.") ∧
    dispatch "update_salesforce_crm" [("customer_id", JsonValue.vstr "999")]
      ⟨none, none, (Customer.getCustomer "123").map Customer.toJson⟩ =
      DispatchResult.overridden [("error", JsonValue.vstr
        "You cannot use the tool with customer_id 999, only for 123.")] := by
  obtain ⟨c, hc, hid⟩ : ∃ c, Customer.getCustomer "123" = some c ∧ c.customer_id = "123" :=
    ⟨_, rfl, rfl⟩
  have hprof : ((⟨none, none, (Customer.getCustomer "123").map Customer.toJson⟩ :
      SessionState)).customer_profile = some (ProfileSlot.serialized c) := by
    rw [hc]; rfl
  have h2 := validateCustomerId_spec.2.1 _ c hprof hid
  refine ⟨h2.1, h2.2, ?_⟩
  exact (validateCustomerId_spec.2.2 "update_salesforce_crm"
    [("customer_id", JsonValue.vstr "999")] _ (JsonValue.vstr "999") _ rfl h2.2).2

/-- C10: a session whose state has the `customer_profile` key bound to an
empty (falsy) value fails the identity guard with the dedicated message
"Customer profile is empty.", an error case distinct from both the
no-profile message and the parse-failure message. -/
theorem validateCustomerId_empty_profile (customerId : JsonValue) (tsv rcv : Option ℚ) :
    validateCustomerId customerId ⟨tsv, rcv, some ProfileSlot.empty⟩ =
      (false, some "Customer profile is empty.") ∧
    "Customer profile is empty." ≠ "No customer profile selected. Please select a profile." ∧
    "Customer profile is empty." ≠
      "Customer profile couldn\x27t be parsed. Please reload the customer data." := by
  exact ⟨rfl, by decide, by decide⟩

/-- C8: when no profile is bound in session state, the bootstrap hook loads
the fixed default customer — whose `customer_id` is `"123"` — and stores
its JSON serialization under the `customer_profile` key; when a profile is
already bound, it leaves session state unchanged. -/
theorem beforeAgent_spec (st : SessionState) :
    (st.customer_profile = none →
      ∃ c, Customer.getCustomer "123" = some c ∧ c.customer_id = "123" ∧
        beforeAgent st = { st with customer_profile := some c.toJson }) ∧
    (∀ p, st.customer_profile = some p → beforeAgent st = st) := by
  constructor
  · intro hnone
    refine ⟨_, rfl, rfl, ?_⟩
    simp [beforeAgent, hnone, Customer.getCustomer]
  · intro p hp
    simp [beforeAgent, hp]

/-- Witness for C8: a fresh session gets the serialized default profile of
customer `"123"`; a session with a bound profile is untouched. -/
theorem beforeAgent_spec_witness :
    (beforeAgent ⟨none, none, none⟩).customer_profile =
      (Customer.getCustomer "123").map Customer.toJson ∧
    beforeAgent ⟨none, none, some ProfileSlot.empty⟩ =
      ⟨none, none, some ProfileSlot.empty⟩ := by
  constructor
  · obtain ⟨c, hc, hid, heq⟩ := (beforeAgent_spec ⟨none, none, none⟩).1 rfl
    rw [heq, hc]
    rfl
  · exact (beforeAgent_spec ⟨none, none, some ProfileSlot.empty⟩).2 ProfileSlot.empty rfl

/-- C9: the post-dispatch hook never overrides — every tool result passes
through to the conversational layer unchanged — and the apply-discount
placeholder side effect fires exactly for the manager-approval tool with an
approved status or the direct-approval tool with an ok status; for every
other tool and result the hook is a no-op. -/
theorem afterTool_spec (toolName : String)
    (toolResponse : Option (List (String × JsonValue))) :
    (afterTool toolName toolResponse).response = none ∧
    ((afterTool toolName toolResponse).appliesDiscount = true ↔
      ((toolName = "sync_ask_for_approval" ∧ responseStatusIs toolResponse "approved" = true) ∨
        (toolName = "approve_discount" ∧ responseStatusIs toolResponse "ok" = true))) := by
  refine ⟨rfl, ?_⟩
  simp [afterTool, Bool.or_eq_true, Bool.and_eq_true, beq_iff_eq]

/-- C5: a discount request of value `11` is not short-circuited by the
pre-dispatch guard — `beforeTool` returns no override for it, on the
guarded manager-approval tool as well as on the direct-approval tool, so
the call falls through to the underlying tool — and the real approval
logic, `approveDiscount`, rejects every discount value greater than `10`
with a rejected (non-ok, non-approved) result. -/
theorem discount_eleven_falls_through :
    (∀ st : SessionState,
      (beforeTool "sync_ask_for_approval" [("value", JsonValue.vnum 11)] st).response = none ∧
      dispatch "sync_ask_for_approval" [("value", JsonValue.vnum 11)] st =
        DispatchResult.executed [("value", JsonValue.vnum 11)] ∧
      (beforeTool "approve_discount" [("value", JsonValue.vnum 11)] st).response = none ∧
      dispatch "approve_discount" [("value", JsonValue.vnum 11)] st =
        DispatchResult.executed [("value", JsonValue.vnum 11)]) ∧
    (∀ (discountType : String) (value : ℚ) (reason : String), value > 10 →
      approveDiscount discountType value reason =
        { status := "rejected", message := some "discount too large. Must be 10 or less." } ∧
      (approveDiscount discountType value reason).status ≠ "ok" ∧
      (approveDiscount discountType value reason).status ≠ "approved") := by
  constructor
  · intro st
    refine ⟨?_, ?_, ?_, ?_⟩ <;>
      simp [beforeTool, dispatch, syncApprovalShortCircuit, modifyCartShortCircuit,
        lookupField, lowercaseFields, lowercaseValue, jsNumber] <;>
      norm_num
  · intro discountType value reason hgt
    have h : approveDiscount discountType value reason =
        { status := "rejected", message := some "discount too large. Must be 10 or less." } := by
      simp [approveDiscount, hgt]
    exact ⟨h, by rw [h]; decide, by rw [h]; decide⟩

/-- Witness for C5: with an empty session, value `11` on the guarded tool
reaches the underlying tool, and `approveDiscount` at value `11` returns
the rejected result. -/
theorem discount_eleven_falls_through_witness :
    dispatch "sync_ask_for_approval" [("value", JsonValue.vnum 11)] ⟨none, none, none⟩ =
      DispatchResult.executed [("value", JsonValue.vnum 11)] ∧
    approveDiscount "percentage" 11 "seasonal promotion" =
      { status := "rejected", message := some "discount too large. Must be 10 or less." } := by
  have h := discount_eleven_falls_through
  exact ⟨(h.1 ⟨none, none, none⟩).2.1,
    (h.2 "percentage" 11 "seasonal promotion" (by norm_num)).1⟩

/-- C6 counterexample: the claim quantifies over every argument map with a
discount value ≤ 10, but an argument map that additionally carries a
`customer_id` failing the identity guard is short-circuited with the guard
error payload, not the canned approved result: with the default profile
(customer `"123"`) bound, `customer_id "999"` with value `5` yields an
`{ error }` payload. -/
theorem sync_approval_guard_counterexample :
    (beforeTool "sync_ask_for_approval"
        [("customer_id", JsonValue.vstr "999"), ("value", JsonValue.vnum 5)]
        ⟨none, none, (Customer.getCustomer "123").map Customer.toJson⟩).response =
      some [("error", JsonValue.vstr
        "You cannot use the tool with customer_id 999, only for 123.")] ∧
    (beforeTool "sync_ask_for_approval"
        [("customer_id", JsonValue.vstr "999"), ("value", JsonValue.vnum 5)]
        ⟨none, none, (Customer.getCustomer "123").map Customer.toJson⟩).response ≠
      some [("status", JsonValue.vstr "approved"),
        ("message", JsonValue.vstr "You can approve this discount; no manager needed.")] := by
  have h : (beforeTool "sync_ask_for_approval"
      [("customer_id", JsonValue.vstr "999"), ("value", JsonValue.vnum 5)]
      ⟨none, none, (Customer.getCustomer "123").map Customer.toJson⟩).response =
      some [("error", JsonValue.vstr
        "You cannot use the tool with customer_id 999, only for 123.")] := rfl
  refine ⟨h, ?_⟩
  rw [h]
  simp

/-- C6 (amended): for the discount-approval-request tool, every argument
map that does not fail the customer-identity guard (no `customer_id` key,
or one that validates) and whose discount value coerces to a number ≤ 10
is short-circuited by `beforeTool` with the canned approved result (status
`"approved"`, "no manager needed"), and the underlying approval/escalation
tool is never invoked. -/
theorem sync_approval_short_circuit (args : List (String × JsonValue))
    (st : SessionState) (amount : JsonValue) (q : ℚ)
    (hguard : ∀ v, lookupField (lowercaseFields args) "customer_id" = some v →
      validateCustomerId v st = (true, none))
    (hamount : lookupField (lowercaseFields args) "value" = some amount)
    (hq : jsNumber amount = some q) (hle : q ≤ 10) :
    (beforeTool "sync_ask_for_approval" args st).response =
      some [("status", JsonValue.vstr "approved"),
        ("message", JsonValue.vstr "You can approve this discount; no manager needed.")] ∧
    dispatch "sync_ask_for_approval" args st =
      DispatchResult.overridden [("status", JsonValue.vstr "approved"),
        ("message", JsonValue.vstr "You can approve this discount; no manager needed.")] := by
  have hresp : (beforeTool "sync_ask_for_approval" args st).response =
      some [("status", JsonValue.vstr "approved"),
        ("message", JsonValue.vstr "You can approve this discount; no manager needed.")] := by
    simp only [beforeTool]
    cases hl : lookupField (lowercaseFields args) "customer_id" with
    | none =>
      simp [syncApprovalShortCircuit, hamount, hq, hle]
    | some v =>
      simp [hguard v hl, syncApprovalShortCircuit, hamount, hq, hle]
  exact ⟨hresp, by simp only [dispatch, hresp]⟩

/-- Witness for C6 (amended): a guard-free argument map with value `7` is
short-circuited with the canned approval. -/
theorem sync_approval_short_circuit_witness :
    (beforeTool "sync_ask_for_approval" [("value", JsonValue.vnum 7)]
      ⟨none, none, none⟩).response =
      some [("status", JsonValue.vstr "approved"),
        ("message", JsonValue.vstr "You can approve this discount; no manager needed.")] :=
  (sync_approval_short_circuit [("value", JsonValue.vnum 7)] ⟨none, none, none⟩
    (JsonValue.vnum 7) 7 (fun _ h => nomatch h) rfl rfl (by norm_num)).1

end CustomerService
